import Mathlib

/-!
Verification of the `V86Controller` class (serial command/response correlation
and event-listener lifecycle bookkeeping of the livebook repository).

JavaScript strings are modelled as lists of UTF-16 code units (`List Nat`);
the external v86 emulator handle is modelled as a record that registers and
unregisters listener identities, receives serial input, and may be configured
so that its `remove_listener` throws (to model a destroyed handle).  Listener
closures are modelled by identities drawn from a fresh-id counter; the state
captured by each waiter closure (its accumulation buffer and deadline) is
stored explicitly in the listener entry.  Timers are modelled by absolute
deadlines (`now + delay`); the host firing a pending timer is the `fireTimer`
transition, and the host delivering one serial byte is the `feedByte`
transition.
-/

/-- JavaScript string: a sequence of UTF-16 code units. -/
abbrev Str := List Nat

/-- Code units of a Lean string literal (all our literals are ASCII). -/
def strL (s : String) : Str := s.data.map Char.toNat

/-- `String.fromCharCode(b)`: the argument is reduced modulo 2^16. -/
def fromCharCode (b : Nat) : Nat := b % 65536

/-- Code-unit view of a byte sequence as received by the serial listener. -/
def charsOf (bs : List Nat) : Str := bs.map fromCharCode

/-- First index of `needle` in `hay` (JS `String.prototype.indexOf`). -/
def idxOfSub (needle : Str) : Str → Option Nat
  | [] => if needle = [] then some 0 else none
  | c :: rest =>
      if needle.isPrefixOf (c :: rest) then some 0
      else (idxOfSub needle rest).map (· + 1)

/-- JS `String.prototype.includes`. -/
def containsS (needle hay : Str) : Bool := (idxOfSub needle hay).isSome

/-- Carriage return or line feed, i.e. the character class of `[\r\n]`. -/
def isCRLF (c : Nat) : Bool := c = 13 || c = 10

/-- Characters removed by JS `String.prototype.trim` (ASCII and the common
Unicode ones; all inputs in this development are ASCII). -/
def isJsWS (c : Nat) : Bool :=
  c = 9 || c = 10 || c = 11 || c = 12 || c = 13 || c = 32 || c = 160 || c = 65279

/-- JS `String.prototype.trim`. -/
def trimJS (s : Str) : Str := ((s.dropWhile isJsWS).reverse.dropWhile isJsWS).reverse

/-- JS `String.prototype.replace` with a plain-string first argument:
removes the first occurrence of `needle`. -/
def replaceFirst (needle out : Str) : Str :=
  match idxOfSub needle out with
  | none => out
  | some i => out.take i ++ out.drop (i + needle.length)

/-- `output.replace(new RegExp(\x60echo <endMarker>[\r\n]*\x60), '')`: removes the
first occurrence of the text `echo <endMarker>` together with the maximal
following run of CR/LF characters.  Faithful to the source for end markers
whose characters are regex-literal (letters, digits, underscore), which covers
the default marker. -/
def stripEchoMarker (em out : Str) : Str :=
  let pat := strL (r"echo ") ++ em
  match idxOfSub pat out with
  | none => out
  | some i => out.take i ++ (out.drop (i + pat.length)).dropWhile isCRLF

/-- The post-processing applied by `executeCommand` on resolution
(source lines 643-646): strip the echoed marker invocation, strip the literal
marker, trim. -/
def cleanOutput (em out : Str) : Str := trimJS (replaceFirst em (stripEchoMarker em out))

/-- A character is safe to interpolate literally into a JS regular
expression (the default end marker only uses these). -/
def regexLiteralChar (c : Nat) : Bool :=
  (48 ≤ c && c ≤ 57) || (65 ≤ c && c ≤ 90) || (97 ≤ c && c ≤ 122) || c = 95

/-- Default end marker of `executeCommand`. -/
def defaultMarker : Str := strL (r"___V86_CMD_DONE___")

/-- A wait pattern: a literal string, or a regular expression modelled
abstractly by its source text and its JS `match` behaviour
(`find buf = match[0]` of the first match, `none` when the regex does not
match). -/
inductive Pattern where
  | str (p : Str)
  | regex (source : Str) (find : Str → Option Str)

/-- Text interpolated for the pattern in the timeout error message. -/
def Pattern.describe : Pattern → Str
  | .str p => p
  | .regex src _ => src

/-- The `checkMatch` closure of `waitForSerialOutput` (source lines 302-315):
a string pattern resolves with the whole accumulated buffer, a regex pattern
with the first matched substring. -/
def checkMatch : Pattern → Str → Option Str
  | .str p, buf => if containsS p buf then some buf else none
  | .regex _ f, buf => f buf

/-- Event names of the v86 event bus used by the controller. -/
inductive EvName where
  | serial0OutputByte
  | emulatorReady
  | emulatorStarted
  | emulatorStopped
  | downloadProgress
  | otherEv (n : Nat)
deriving DecidableEq

/-- Model of the external v86 emulator handle: the listeners currently
registered on its bus, the text so far enqueued on its serial input, its
running flag and instruction counter, and a flag (`removeFails`) modelling a
handle whose `remove_listener` throws (e.g. an already-destroyed handle). -/
structure V86 where
  id : Nat
  registered : List (EvName × Nat) := []
  removeFails : Bool := false
  running : Bool := false
  instructionCounter : Nat := 0
  serialInput : Str := []
  restarts : Nat := 0

/-- `emulator.add_listener(event, listener)`. -/
def V86.add_listener (v : V86) (ev : EvName) (l : Nat) : V86 :=
  { v with registered := v.registered ++ [(ev, l)] }

/-- The successful effect of `remove_listener`: drop the registration. -/
def V86.removeL (v : V86) (ev : EvName) (l : Nat) : V86 :=
  { v with registered := v.registered.filter (fun p => !(p.1 == ev && p.2 == l)) }

/-- `emulator.remove_listener(event, listener)`, which throws when the handle
is in the failing configuration. -/
def V86.remove_listener (v : V86) (ev : EvName) (l : Nat) : Except Unit V86 :=
  if v.removeFails then .error () else .ok (v.removeL ev l)

/-- `emulator.serial0_send(data)`: enqueue outbound serial text. -/
def V86.serial0_send (v : V86) (data : Str) : V86 :=
  { v with serialInput := v.serialInput ++ data }

/-- `emulator.is_running()`. -/
def V86.is_running (v : V86) : Bool := v.running

/-- `emulator.get_instruction_counter()`. -/
def V86.get_instruction_counter (v : V86) : Nat := v.instructionCounter

/-- `emulator.run()`. -/
def V86.run (v : V86) : V86 := { v with running := true }

/-- `emulator.restart()`. -/
def V86.restart (v : V86) : V86 := { v with restarts := v.restarts + 1 }

/-- One entry of the controller's `serialListeners` set.  `user` is a plain
listener added through `onSerialOutput`; `waiter` is the closure registered by
`waitForSerialOutput` (pattern, private accumulation buffer, optional absolute
deadline); `cmd` is the closure registered by `executeCommand` (command text,
end marker, output accumulator, absolute deadline and original timeout,
installed unconditionally by the source). -/
inductive SL where
  | user (lid : Nat)
  | waiter (lid : Nat) (pat : Pattern) (buf : Str) (deadline : Option Nat)
  | cmd (lid : Nat) (command : Str) (endMarker : Str) (buf : Str)
      (deadline : Nat) (timeoutMs : Nat)

/-- Identity of a serial listener closure. -/
def idOf : SL → Nat
  | .user i => i
  | .waiter i _ _ _ => i
  | .cmd i _ _ _ _ _ => i

/-- Absolute deadline of the timer owned by a serial listener, if any. -/
def slTimer : SL → Option Nat
  | .user _ => none
  | .waiter _ _ _ d => d
  | .cmd _ _ _ _ d _ => some d

/-- Settlement events of pending promises: resolution with a value, the
timeout rejection of `waitForSerialOutput` (carrying the interpolated pattern
text), or the timeout rejection of `executeCommand` (carrying the command and
the timeout value named in the message). -/
inductive Outcome where
  | resolved (lid : Nat) (value : Str)
  | serialTimeout (lid : Nat) (patText : Str)
  | cmdTimeout (lid : Nat) (command : Str) (timeoutMs : Nat)
deriving DecidableEq

/-- Identity of the listener a settlement belongs to. -/
def outId : Outcome → Nat
  | .resolved i _ => i
  | .serialTimeout i _ => i
  | .cmdTimeout i _ _ => i

/-- Delivery of one character to one serial listener (the listener closures
at source lines 317-320 and 638-649): either the listener survives with an
updated accumulation buffer, or it matches, removes itself and settles. -/
def stepSL (c : Nat) : SL → SL ⊕ Outcome
  | .user i => .inl (.user i)
  | .waiter i p buf d =>
      let buf' := buf ++ [c]
      match checkMatch p buf' with
      | some v => .inr (.resolved i v)
      | none => .inl (.waiter i p buf' d)
  | .cmd i command em buf d t =>
      let buf' := buf ++ [c]
      if containsS em buf' then .inr (.resolved i (cleanOutput em buf'))
      else .inl (.cmd i command em buf' d t)

/-- State of one `V86Controller` instance (source lines 70-74). -/
structure Ctrl where
  emulator : Option V86 := none
  serialBuffer : Str := []
  serialListeners : List SL := []
  eventListeners : List (EvName × List Nat) := []
  serialByteListener : Option Nat := none
  nextId : Nat := 0

/-- `new V86Controller()` with no emulator argument. -/
def ctrl0 : Ctrl := {}

/-- `isAttached()`. -/
def isAttached (s : Ctrl) : Bool := s.emulator.isSome

/-- First statement of `setupSerialListener` (source lines 230-232): remove
the previously tracked serial-byte listener from the *currently stored*
emulator, if both exist. -/
def setupRemovePrev (s : Ctrl) : Except Unit Ctrl :=
  match s.serialByteListener, s.emulator with
  | some l, some em =>
      match em.remove_listener .serial0OutputByte l with
      | .ok em' => .ok { s with emulator := some em' }
      | .error e => .error e
  | _, _ => .ok s

/-- `setupSerialListener()` (source lines 228-242): remove the previously
tracked serial-byte listener from the *currently stored* emulator, create a
fresh listener closure, store its reference and register it on the stored
emulator.  Throws if that removal throws. -/
def setupSerialListener (s : Ctrl) : Except Unit Ctrl :=
  match setupRemovePrev s with
  | .error e => .error e
  | .ok s1 =>
      let lid := s1.nextId
      let s2 := { s1 with serialByteListener := some lid, nextId := s1.nextId + 1 }
      match s2.emulator with
      | some em => .ok { s2 with emulator := some (em.add_listener .serial0OutputByte lid) }
      | none => .ok s2

/-- `attach(emulator)` (source lines 85-88): store the handle, then
`setupSerialListener()`. -/
def attach (em : V86) (s : Ctrl) : Except Unit Ctrl :=
  setupSerialListener { s with emulator := some em }

/-- `this.emulator?.remove_listener(ev, cb)` inside the detach loop. -/
def removeOnHandle (ev : EvName) (cb : Nat) (s : Ctrl) : Except Unit Ctrl :=
  match s.emulator with
  | none => .ok s
  | some em =>
      match em.remove_listener ev cb with
      | .ok em' => .ok { s with emulator := some em' }
      | .error e => .error e

/-- Inner loop of the detach `forEach`: unregister each tracked callback of
one event. -/
def removeCbs (ev : EvName) : List Nat → Ctrl → Except Unit Ctrl
  | [], s => .ok s
  | cb :: cbs, s =>
      match removeOnHandle ev cb s with
      | .ok s' => removeCbs ev cbs s'
      | .error e => .error e

/-- Outer loop of the detach `forEach` over the listener registry. -/
def removeAllTracked : List (EvName × List Nat) → Ctrl → Except Unit Ctrl
  | [], s => .ok s
  | (ev, cbs) :: rest, s =>
      match removeCbs ev cbs s with
      | .ok s' => removeAllTracked rest s'
      | .error e => .error e

/-- First statement of `detach()` (source lines 95-98): remove the
serial-byte listener from the handle and null its reference, if both
exist. -/
def detachSerialStep (s : Ctrl) : Except Unit Ctrl :=
  match s.serialByteListener, s.emulator with
  | some l, some em =>
      match em.remove_listener .serial0OutputByte l with
      | .ok em' => .ok { s with emulator := some em', serialByteListener := none }
      | .error e => .error e
  | _, _ => .ok s

/-- `detach()` (source lines 93-110): remove the serial byte listener, remove
every tracked listener, then clear the registry, release the handle, clear
the serial buffer and clear the serial listener set.  No error from
`remove_listener` is caught, so a throwing handle makes `detach` throw. -/
def detach (s : Ctrl) : Except Unit Ctrl :=
  match detachSerialStep s with
  | .error e => .error e
  | .ok s1 =>
      match removeAllTracked s1.eventListeners s1 with
      | .error e => .error e
      | .ok s2 =>
          .ok { s2 with eventListeners := [], emulator := none,
                        serialBuffer := [], serialListeners := [] }

/-- `run()`: `this.emulator?.run()`. -/
def run (s : Ctrl) : Ctrl :=
  match s.emulator with
  | some em => { s with emulator := some em.run }
  | none => s

/-- `restart()`: `this.emulator?.restart()`. -/
def restart (s : Ctrl) : Ctrl :=
  match s.emulator with
  | some em => { s with emulator := some em.restart }
  | none => s

/-- `isRunning()`: `this.emulator?.is_running() ?? false`. -/
def isRunning (s : Ctrl) : Bool :=
  match s.emulator with
  | some em => em.is_running
  | none => false

/-- `getInstructionCounter()`: `this.emulator?.get_instruction_counter() ?? 0`. -/
def getInstructionCounter (s : Ctrl) : Nat :=
  match s.emulator with
  | some em => em.get_instruction_counter
  | none => 0

/-- `sendSerial(data)`: `this.emulator?.serial0_send(data)`. -/
def sendSerial (data : Str) (s : Ctrl) : Ctrl :=
  match s.emulator with
  | some em => { s with emulator := some (em.serial0_send data) }
  | none => s

/-- `getSerialBuffer()`. -/
def getSerialBuffer (s : Ctrl) : Str := s.serialBuffer

/-- `clearSerialBuffer()`. -/
def clearSerialBuffer (s : Ctrl) : Ctrl := { s with serialBuffer := [] }

/-- `onSerialOutput(listener)`: add a plain listener (a fresh identity) to
the serial listener set; returns its identity. -/
def onSerialOutput (s : Ctrl) : Ctrl × Nat :=
  let lid := s.nextId
  ({ s with serialListeners := s.serialListeners ++ [.user lid], nextId := lid + 1 }, lid)

/-- The body of the serial byte listener installed by
`setupSerialListener` (source lines 235-239): append
`String.fromCharCode(byte)` to the serial buffer, then dispatch the character
to every serial listener; listeners that match settle and remove themselves.
Returns the new state and the settlements produced by this byte. -/
def feedByte (b : Nat) (s : Ctrl) : Ctrl × List Outcome :=
  let c := fromCharCode b
  ({ s with serialBuffer := s.serialBuffer ++ [c],
            serialListeners := s.serialListeners.filterMap
              (fun l => (stepSL c l).getLeft?) },
   s.serialListeners.filterMap (fun l => (stepSL c l).getRight?))

/-- Deliver a byte sequence one byte at a time, collecting settlements in
order. -/
def feedString : List Nat → Ctrl → Ctrl × List Outcome
  | [], s => (s, [])
  | b :: bs, s =>
      let r1 := feedByte b s
      let r2 := feedString bs r1.1
      (r2.1, r1.2 ++ r2.2)

/-- The timeout callback of the serial listener with identity `wid`: when
that listener is present and owns a timer, it removes itself and rejects
(source lines 323-326 and 651-654).  A listener without a deadline has no
timer, so nothing can fire for it. -/
def timeoutOutcome : SL → Option Outcome
  | .waiter i p _ (some _) => some (.serialTimeout i (Pattern.describe p))
  | .cmd i command _ _ _ t => some (.cmdTimeout i command t)
  | _ => none

/-- Host firing the pending timer of listener `wid`. -/
def fireTimer (wid : Nat) (s : Ctrl) : Ctrl × Option Outcome :=
  match s.serialListeners.find? (fun l => idOf l == wid) with
  | some l =>
      match timeoutOutcome l with
      | some o =>
          ({ s with serialListeners := s.serialListeners.filter (fun x => !(idOf x == wid)) },
           some o)
      | none => (s, none)
  | none => (s, none)

/-- Result of starting a `waitForSerialOutput` call. -/
inductive WaitStart where
  | resolved (value : Str)
  | pending (wid : Nat)
deriving DecidableEq

/-- `waitForSerialOutput(expected, {timeout_msec})` (source lines 287-334):
install a timer only when `timeout_msec > 0`, register a listener whose
buffer is seeded with the current serial buffer, and check for an immediate
match (in which case the timer is cleared, the listener removed and the
promise resolved, leaving the state unchanged). -/
def waitForSerialOutput (pat : Pattern) (timeout_msec now : Nat) (s : Ctrl) :
    Ctrl × WaitStart :=
  let deadline := if timeout_msec > 0 then some (now + timeout_msec) else none
  match checkMatch pat s.serialBuffer with
  | some v => (s, .resolved v)
  | none =>
      let wid := s.nextId
      let ls := s.serialListeners ++ [SL.waiter wid pat s.serialBuffer deadline]
      ({ s with serialListeners := ls, nextId := wid + 1 }, .pending wid)

/-- Start state of a `waitForScreenText` call.  When the screen already
matches at call time, the source's `cleanup()` reads the `intervalId` and
`timeoutId` constants before their initializers have run, so the promise
executor throws a ReferenceError (temporal dead zone) and the promise
rejects; no interval and no timer get installed.  Otherwise polling starts
with an optional deadline (`timeout_msec > 0`). -/
inductive ScreenWaitStart where
  | immediateError
  | polling (deadline : Option Nat)
deriving DecidableEq

/-- The per-poll screen check of `waitForScreenText` (source lines 468-485):
string patterns by containment, regex patterns by `test`. -/
def screenMatches (pats : List Pattern) (screen : Str) : Bool :=
  pats.any (fun p =>
    match p with
    | .str q => containsS q screen
    | .regex _ f => (f screen).isSome)

/-- `waitForScreenText(expected, {timeout_msec})` (source lines 455-502),
started against the screen text sampled at call time. -/
def waitForScreenText (pats : List Pattern) (timeout_msec now : Nat) (screen : Str) :
    ScreenWaitStart :=
  if screenMatches pats screen then .immediateError
  else .polling (if timeout_msec > 0 then some (now + timeout_msec) else none)

/-- Deadline installed by a `waitForScreenText` start. -/
def screenDeadline : ScreenWaitStart → Option Nat
  | .immediateError => none
  | .polling d => d

/-- Result of `executeCommand`: the new controller state, the identity of the
registered command listener, and the line handed to `sendSerial`. -/
structure ExecStart where
  state : Ctrl
  wid : Nat
  line : Str

/-- `executeCommand(command, {timeout, endMarker})` (source lines 627-661):
install a deadline timer *unconditionally* at `now + timeout`, register a
listener accumulating from the empty string, and send
`<command>; echo <endMarker>\n` over serial. -/
def executeCommand (command : Str) (timeout : Nat) (endMarker : Str) (now : Nat)
    (s : Ctrl) : ExecStart :=
  let wid := s.nextId
  let line := command ++ strL (r"; echo ") ++ endMarker ++ [10]
  let ls := s.serialListeners ++ [SL.cmd wid command endMarker [] (now + timeout) timeout]
  let s1 := { s with serialListeners := ls, nextId := wid + 1 }
  { state := sendSerial line s1, wid := wid, line := line }

/-- Map insertion used by `addListener` (source lines 699-702): create the
event's set if absent, then add the callback (JS `Set.add`: no duplicate). -/
def insertEL (ev : EvName) (cb : Nat) : List (EvName × List Nat) → List (EvName × List Nat)
  | [] => [(ev, [cb])]
  | (e, cbs) :: rest =>
      if e = ev then (e, if cb ∈ cbs then cbs else cbs ++ [cb]) :: rest
      else (e, cbs) :: insertEL ev cb rest

/-- `addListener(event, callback)` (source lines 696-703): register on the
handle if one is attached, and *unconditionally* record the callback in the
registry for cleanup. -/
def addListener (ev : EvName) (cb : Nat) (s : Ctrl) : Ctrl :=
  let s1 :=
    match s.emulator with
    | some em => { s with emulator := some (em.add_listener ev cb) }
    | none => s
  { s1 with eventListeners := insertEL ev cb s1.eventListeners }

/-- Registry update of `removeListener`: `eventListeners.get(event)?.delete(callback)`. -/
def removeFromRegistry (ev : EvName) (cb : Nat) (s : Ctrl) : Ctrl :=
  let f := fun (p : EvName × List Nat) =>
    if p.1 = ev then (p.1, p.2.filter (fun x => !(x == cb))) else p
  { s with eventListeners := s.eventListeners.map f }

/-- `removeListener(event, callback)` (source lines 708-711). -/
def removeListener (ev : EvName) (cb : Nat) (s : Ctrl) : Except Unit Ctrl :=
  match s.emulator with
  | none => .ok (removeFromRegistry ev cb s)
  | some em =>
      match em.remove_listener ev cb with
      | .ok em' => .ok (removeFromRegistry ev cb { s with emulator := some em' })
      | .error e => .error e

/-- Result of starting one of the lifecycle waits. -/
inductive LifecycleWait where
  | resolvedNow
  | pendingOn (ev : EvName) (lid : Nat)
deriving DecidableEq

/-- `waitForReady()` (source lines 726-740): resolve immediately when no
emulator is attached, otherwise register a one-shot listener. -/
def waitForReady (s : Ctrl) : Ctrl × LifecycleWait :=
  match s.emulator with
  | none => (s, .resolvedNow)
  | some em =>
      let lid := s.nextId
      ({ s with emulator := some (em.add_listener .emulatorReady lid), nextId := lid + 1 },
       .pendingOn .emulatorReady lid)

/-- `waitForStarted()` (source lines 746-760). -/
def waitForStarted (s : Ctrl) : Ctrl × LifecycleWait :=
  match s.emulator with
  | none => (s, .resolvedNow)
  | some em =>
      let lid := s.nextId
      ({ s with emulator := some (em.add_listener .emulatorStarted lid), nextId := lid + 1 },
       .pendingOn .emulatorStarted lid)

/-- `waitForStopped()` (source lines 765-779). -/
def waitForStopped (s : Ctrl) : Ctrl × LifecycleWait :=
  match s.emulator with
  | none => (s, .resolvedNow)
  | some em =>
      let lid := s.nextId
      ({ s with emulator := some (em.add_listener .emulatorStopped lid), nextId := lid + 1 },
       .pendingOn .emulatorStopped lid)

/-- All serial listener identities are below the fresh-id counter (holds for
every state reachable from `ctrl0`; used to know a freshly allocated id is
new). -/
def wfIds (s : Ctrl) : Bool :=
  s.serialListeners.all (fun l => decide (idOf l < s.nextId))

/-- The attached handle, if any, has a non-throwing `remove_listener`. -/
def goodEmu (s : Ctrl) : Bool :=
  match s.emulator with
  | some em => !em.removeFails
  | none => true

/-- Pure trajectory of one serial listener under a character sequence:
either it survives with an updated buffer, or it settles after some prefix
and is gone for the remaining characters. -/
def runSL : List Nat → SL → Except Outcome SL
  | [], l => .ok l
  | c :: cs, l =>
      match stepSL c l with
      | .inl l' => runSL cs l'
      | .inr o => .error o

/-- The first extension `buf ++ p` (for a nonempty prefix `p` of `cs`) that
contains `needle`, i.e. the accumulated buffer at the moment a
containment-checking listener first matches. -/
def firstContaining (needle : Str) (buf : Str) : List Nat → Option Str
  | [] => none
  | c :: cs =>
      let buf' := buf ++ [c]
      if containsS needle buf' then some buf' else firstContaining needle buf' cs

/-- The value of the first successful regex application along the growing
buffer. -/
def firstHit (f : Str → Option Str) (buf : Str) : List Nat → Option Str
  | [] => none
  | c :: cs =>
      let buf' := buf ++ [c]
      match f buf' with
      | some m => some m
      | none => firstHit f buf' cs

lemma runSL_cmd (cs : List Nat) (i : Nat) (cmd0 em buf : Str) (d t : Nat) :
    runSL cs (.cmd i cmd0 em buf d t) =
      match firstContaining em buf cs with
      | some p => .error (.resolved i (cleanOutput em p))
      | none => .ok (.cmd i cmd0 em (buf ++ cs) d t) := by
  induction cs generalizing buf with
  | nil => simp [runSL, firstContaining]
  | cons c cs ih =>
      simp only [runSL, stepSL, firstContaining]
      by_cases h : containsS em (buf ++ [c]) = true
      · simp [h]
      · simp only [Bool.not_eq_true] at h
        simp [h, ih, List.append_assoc]

lemma runSL_waiter_str (cs : List Nat) (i : Nat) (p buf : Str) (d : Option Nat) :
    runSL cs (.waiter i (.str p) buf d) =
      match firstContaining p buf cs with
      | some b => .error (.resolved i b)
      | none => .ok (.waiter i (.str p) (buf ++ cs) d) := by
  induction cs generalizing buf with
  | nil => simp [runSL, firstContaining]
  | cons c cs ih =>
      simp only [runSL, stepSL, firstContaining, checkMatch]
      by_cases h : containsS p (buf ++ [c]) = true
      · simp [h]
      · simp only [Bool.not_eq_true] at h
        simp [h, ih, List.append_assoc]

lemma runSL_waiter_regex (cs : List Nat) (i : Nat) (src buf : Str)
    (f : Str → Option Str) (d : Option Nat) :
    runSL cs (.waiter i (.regex src f) buf d) =
      match firstHit f buf cs with
      | some m => .error (.resolved i m)
      | none => .ok (.waiter i (.regex src f) (buf ++ cs) d) := by
  induction cs generalizing buf with
  | nil => simp [runSL, firstHit]
  | cons c cs ih =>
      simp only [runSL, stepSL, firstHit, checkMatch]
      cases h : f (buf ++ [c]) with
      | some m => simp [h]
      | none => simp [h, ih, List.append_assoc]

lemma stepSL_id_left {c : Nat} {l l' : SL} (h : stepSL c l = .inl l') :
    idOf l' = idOf l := by
  cases l <;> simp only [stepSL] at h
  · cases h; rfl
  · split at h
    · cases h
    · cases h; rfl
  · split at h
    · cases h
    · cases h; rfl

lemma stepSL_id_right {c : Nat} {l : SL} {o : Outcome} (h : stepSL c l = .inr o) :
    outId o = idOf l := by
  cases l <;> simp only [stepSL] at h
  · cases h
  · split at h
    · cases h; rfl
    · cases h
  · split at h
    · cases h; rfl
    · cases h

lemma feedByte_fst (b : Nat) (s : Ctrl) :
    (feedByte b s).1 =
      { s with serialBuffer := s.serialBuffer ++ [fromCharCode b],
               serialListeners := s.serialListeners.filterMap
                 (fun l => (stepSL (fromCharCode b) l).getLeft?) } := rfl

lemma feedByte_snd (b : Nat) (s : Ctrl) :
    (feedByte b s).2 =
      s.serialListeners.filterMap (fun l => (stepSL (fromCharCode b) l).getRight?) := rfl

lemma mem_feedByte_listeners {b : Nat} {s : Ctrl} {l l' : SL}
    (hl : l ∈ s.serialListeners) (hs : stepSL (fromCharCode b) l = .inl l') :
    l' ∈ (feedByte b s).1.serialListeners := by
  rw [feedByte_fst]
  exact List.mem_filterMap.mpr ⟨l, hl, by simp [hs]⟩

lemma mem_feedByte_outs {b : Nat} {s : Ctrl} {l : SL} {o : Outcome}
    (hl : l ∈ s.serialListeners) (hs : stepSL (fromCharCode b) l = .inr o) :
    o ∈ (feedByte b s).2 := by
  rw [feedByte_snd]
  exact List.mem_filterMap.mpr ⟨l, hl, by simp [hs]⟩

lemma feedString_cons (b : Nat) (bs : List Nat) (s : Ctrl) :
    feedString (b :: bs) s =
      ((feedString bs (feedByte b s).1).1,
        (feedByte b s).2 ++ (feedString bs (feedByte b s).1).2) := rfl

/-- A settlement reached by a listener's own trajectory is among the
settlements produced by feeding the same bytes into the controller. -/
lemma feedString_out {bs : List Nat} {s : Ctrl} {l : SL} {o : Outcome}
    (hl : l ∈ s.serialListeners) (h : runSL (charsOf bs) l = .error o) :
    o ∈ (feedString bs s).2 := by
  induction bs generalizing l s with
  | nil => simp [runSL, charsOf] at h
  | cons b bs ih =>
      have hc : charsOf (b :: bs) = fromCharCode b :: charsOf bs := rfl
      rw [hc] at h
      rw [feedString_cons]
      simp only [runSL] at h
      cases hs : stepSL (fromCharCode b) l with
      | inl l' =>
          rw [hs] at h
          exact List.mem_append_right _ (ih (mem_feedByte_listeners hl hs) h)
      | inr o' =>
          rw [hs] at h
          cases h
          exact List.mem_append_left _ (mem_feedByte_outs hl hs)

/-- Every listener present after a byte descends from a listener present
before it, with the same identity. -/
lemma feedByte_listener_src {b : Nat} {s : Ctrl} {l' : SL}
    (h : l' ∈ (feedByte b s).1.serialListeners) :
    ∃ l ∈ s.serialListeners, idOf l' = idOf l := by
  rw [feedByte_fst] at h
  rcases List.mem_filterMap.mp h with ⟨l, hl, he⟩
  refine ⟨l, hl, ?_⟩
  cases hs : stepSL (fromCharCode b) l with
  | inl x => rw [hs] at he; simp at he; subst he; exact stepSL_id_left hs
  | inr o => rw [hs] at he; simp at he

/-- Every settlement produced by feeding bytes belongs to a listener that was
present when feeding started. -/
lemma feedString_out_src {bs : List Nat} {s : Ctrl} {o : Outcome}
    (h : o ∈ (feedString bs s).2) :
    ∃ l ∈ s.serialListeners, outId o = idOf l := by
  induction bs generalizing s with
  | nil => simp [feedString] at h
  | cons b bs ih =>
      rw [feedString_cons] at h
      rcases List.mem_append.mp h with h1 | h2
      · rw [feedByte_snd] at h1
        rcases List.mem_filterMap.mp h1 with ⟨l, hl, he⟩
        refine ⟨l, hl, ?_⟩
        cases hs : stepSL (fromCharCode b) l with
        | inl x => rw [hs] at he; simp at he
        | inr o' => rw [hs] at he; simp at he; subst he; exact stepSL_id_right hs
      · rcases ih h2 with ⟨l', hl', hid⟩
        rcases feedByte_listener_src hl' with ⟨l, hl, hid2⟩
        exact ⟨l, hl, hid.trans hid2⟩

lemma findAppendRight {p : SL → Bool} {l1 l2 : List SL}
    (h : ∀ x ∈ l1, p x = false) :
    List.find? p (l1 ++ l2) = List.find? p l2 := by
  induction l1 with
  | nil => rfl
  | cons a l1 ih =>
      have ha : p a = false := h a (by simp)
      simp only [List.cons_append, List.find?, ha]
      exact ih (fun x hx => h x (by simp [hx]))

lemma removeL_removeFails (v : V86) (ev : EvName) (l : Nat) :
    (v.removeL ev l).removeFails = v.removeFails := rfl

lemma removeOnHandle_none {ev : EvName} {cb : Nat} {s : Ctrl}
    (h : s.emulator = none) : removeOnHandle ev cb s = .ok s := by
  simp [removeOnHandle, h]

lemma removeCbs_none {ev : EvName} {s : Ctrl} (cbs : List Nat)
    (h : s.emulator = none) : removeCbs ev cbs s = .ok s := by
  induction cbs with
  | nil => rfl
  | cons cb cbs ih => simp [removeCbs, removeOnHandle_none h, ih]

lemma removeAllTracked_none {s : Ctrl} (els : List (EvName × List Nat))
    (h : s.emulator = none) : removeAllTracked els s = .ok s := by
  induction els with
  | nil => rfl
  | cons p rest ih => simp [removeAllTracked, removeCbs_none p.2 h, ih]

lemma removeOnHandle_good {ev : EvName} {cb : Nat} {s : Ctrl}
    (h : goodEmu s = true) :
    ∃ s', removeOnHandle ev cb s = .ok s' ∧ goodEmu s' = true := by
  cases he : s.emulator with
  | none => exact ⟨s, removeOnHandle_none he, h⟩
  | some em =>
      have hf : em.removeFails = false := by
        simpa [goodEmu, he] using h
      refine ⟨{ s with emulator := some (em.removeL ev cb) }, ?_, ?_⟩
      · simp [removeOnHandle, he, V86.remove_listener, hf]
      · simp [goodEmu, removeL_removeFails, hf]

lemma removeCbs_good {ev : EvName} {s : Ctrl} (cbs : List Nat)
    (h : goodEmu s = true) :
    ∃ s', removeCbs ev cbs s = .ok s' ∧ goodEmu s' = true := by
  induction cbs generalizing s with
  | nil => exact ⟨s, rfl, h⟩
  | cons cb cbs ih =>
      rcases @removeOnHandle_good ev cb s h with ⟨s1, h1, hg1⟩
      rcases ih hg1 with ⟨s2, h2, hg2⟩
      exact ⟨s2, by simp [removeCbs, h1, h2], hg2⟩

lemma removeAllTracked_good {s : Ctrl} (els : List (EvName × List Nat))
    (h : goodEmu s = true) :
    ∃ s', removeAllTracked els s = .ok s' ∧ goodEmu s' = true := by
  induction els generalizing s with
  | nil => exact ⟨s, rfl, h⟩
  | cons p rest ih =>
      rcases @removeCbs_good p.1 s p.2 h with ⟨s1, h1, hg1⟩
      rcases ih hg1 with ⟨s2, h2, hg2⟩
      exact ⟨s2, by simp [removeAllTracked, h1, h2], hg2⟩


lemma detachSerialStep_good {s : Ctrl} (h : goodEmu s = true) :
    ∃ s1, detachSerialStep s = .ok s1 ∧ goodEmu s1 = true := by
  rcases hb : s.serialByteListener with _ | l
  · exact ⟨s, by simp [detachSerialStep, hb], h⟩
  · rcases he : s.emulator with _ | em
    · exact ⟨s, by simp [detachSerialStep, hb, he], h⟩
    · have hf : em.removeFails = false := by simpa [goodEmu, he] using h
      refine ⟨{ s with emulator := some (em.removeL .serial0OutputByte l), serialByteListener := none }, ?_, ?_⟩
      · simp [detachSerialStep, hb, he, V86.remove_listener, hf]
      · simp [goodEmu, removeL_removeFails, hf]

/-- `detach` succeeds whenever the attached handle (if any) does not throw,
and then reaches the fully cleared state. -/
lemma detach_good {s : Ctrl} (h : goodEmu s = true) :
    ∃ s', detach s = .ok s' ∧ s'.eventListeners = [] ∧ s'.serialBuffer = [] ∧
      s'.serialListeners = [] ∧ s'.emulator = none := by
  rcases detachSerialStep_good h with ⟨s1, h1, hg1⟩
  rcases removeAllTracked_good s1.eventListeners hg1 with ⟨s2, h2, _⟩
  exact ⟨{ s2 with eventListeners := [], emulator := none, serialBuffer := [], serialListeners := [] },
    by simp [detach, h1, h2], rfl, rfl, rfl, rfl⟩

/-- Whatever `detach` returns successfully is a cleared state. -/
lemma detach_ok_fields {s s' : Ctrl} (h : detach s = .ok s') :
    s'.emulator = none ∧ s'.eventListeners = [] ∧ s'.serialBuffer = [] ∧
      s'.serialListeners = [] := by
  unfold detach at h
  split at h
  · cases h
  · split at h
    · cases h
    · cases h
      exact ⟨rfl, rfl, rfl, rfl⟩

lemma detach_unattached {s : Ctrl} (h : s.emulator = none) :
    detach s = .ok { s with eventListeners := [], emulator := none, serialBuffer := [], serialListeners := [] } := by
  have h1 : detachSerialStep s = .ok s := by
    rcases hb : s.serialByteListener with _ | l <;> simp [detachSerialStep, hb, h]
  have h2 : removeAllTracked s.eventListeners s = .ok s := removeAllTracked_none _ h
  simp [detach, h1, h2]

/-- Full characterization of `attach` on a non-throwing handle: the handle is
stored, the previously tracked serial-byte listener (if any) is removed *via
the new handle*, a fresh serial listener is registered on it, and nothing
else changes — in particular no detach happens, and neither the serial
buffer, the serial listener set nor the listener registry is touched. -/
lemma attach_good (em : V86) (s : Ctrl) (h : em.removeFails = false) :
    attach em s = .ok { s with emulator := some (V86.add_listener (match s.serialByteListener with | some l => em.removeL .serial0OutputByte l | none => em) .serial0OutputByte s.nextId), serialByteListener := some s.nextId, nextId := s.nextId + 1 } := by
  rcases hb : s.serialByteListener with _ | l
  · simp [attach, setupSerialListener, setupRemovePrev, hb]
  · simp [attach, setupSerialListener, setupRemovePrev, hb, V86.remove_listener, h]

lemma sendSerial_serialListeners (d : Str) (s : Ctrl) :
    (sendSerial d s).serialListeners = s.serialListeners := by
  rcases he : s.emulator with _ | em <;> simp [sendSerial, he]

lemma timeoutOutcome_none {l : SL} (h : slTimer l = none) : timeoutOutcome l = none := by
  cases l with
  | user i => rfl
  | waiter i p b d =>
      cases d with
      | none => rfl
      | some t => simp [slTimer] at h
  | cmd i c e b d t => simp [slTimer] at h

lemma feedString_buffer (bs : List Nat) (s : Ctrl) :
    (feedString bs s).1.serialBuffer = s.serialBuffer ++ charsOf bs := by
  induction bs generalizing s with
  | nil => simp [feedString, charsOf]
  | cons b bs ih =>
      rw [feedString_cons]
      have hc : charsOf (b :: bs) = fromCharCode b :: charsOf bs := rfl
      rw [ih, feedByte_fst, hc]
      simp

/-- C6: each incoming serial byte is appended to the serial buffer as the
single character `String.fromCharCode(byte)` and then dispatched to every
registered serial listener (each listener stepped with exactly that
character); consequently, for every byte sequence received with no
intervening clear, the buffer is the in-order concatenation of all received
characters after the old contents, and its length is non-decreasing. -/
theorem c6_byte_ingestion :
    (∀ b s, (feedByte b s).1.serialBuffer = s.serialBuffer ++ [fromCharCode b]
      ∧ (feedByte b s).1.serialListeners = s.serialListeners.filterMap (fun l => (stepSL (fromCharCode b) l).getLeft?)
      ∧ (feedByte b s).2 = s.serialListeners.filterMap (fun l => (stepSL (fromCharCode b) l).getRight?))
    ∧ (∀ bs s, getSerialBuffer (feedString bs s).1 = getSerialBuffer s ++ charsOf bs)
    ∧ (∀ bs s, (getSerialBuffer s).length ≤ (getSerialBuffer (feedString bs s).1).length) := by
  refine ⟨fun b s => ⟨rfl, rfl, rfl⟩, fun bs s => feedString_buffer bs s, fun bs s => ?_⟩
  rw [getSerialBuffer, getSerialBuffer, feedString_buffer]
  simp

/-- C10: when no emulator is attached, `waitForReady`, `waitForStarted` and
`waitForStopped` all resolve immediately with no value, leaving the state
unchanged. -/
theorem c10_lifecycle_waits (s : Ctrl) (h : s.emulator = none) :
    waitForReady s = (s, .resolvedNow) ∧ waitForStarted s = (s, .resolvedNow) ∧
      waitForStopped s = (s, .resolvedNow) := by
  refine ⟨?_, ?_, ?_⟩ <;> simp [waitForReady, waitForStarted, waitForStopped, h]

theorem c10_witness :
    ctrl0.emulator = none ∧ waitForReady ctrl0 = (ctrl0, .resolvedNow) ∧
      waitForStarted ctrl0 = (ctrl0, .resolvedNow) ∧
      waitForStopped ctrl0 = (ctrl0, .resolvedNow) :=
  ⟨rfl, c10_lifecycle_waits ctrl0 rfl⟩

/-- C9: a successful `detach` always leaves the controller unattached;
`detach` on an unattached controller (never attached, or detached twice in a
row) succeeds without throwing; and while unattached, `sendSerial`, `run` and
`restart` are no-ops, `isRunning()` returns `false` and
`getInstructionCounter()` returns `0`. -/
theorem c9_unattached_defaults :
    (∀ s s', detach s = .ok s' → isAttached s' = false)
    ∧ (∀ s, s.emulator = none → detach s = .ok { s with eventListeners := [], emulator := none, serialBuffer := [], serialListeners := [] })
    ∧ (∀ s s', detach s = .ok s' → ∃ s'', detach s' = .ok s'' ∧ isAttached s'' = false)
    ∧ (∀ s, s.emulator = none → (∀ d, sendSerial d s = s) ∧ run s = s ∧ restart s = s ∧ isRunning s = false ∧ getInstructionCounter s = 0) := by
  have hatt : ∀ s s', detach s = .ok s' → isAttached s' = false := by
    intro s s' h
    have := (detach_ok_fields h).1
    simp [isAttached, this]
  refine ⟨hatt, fun s h => detach_unattached h, ?_, ?_⟩
  · intro s s' h
    have h1 := (detach_ok_fields h).1
    refine ⟨_, detach_unattached h1, ?_⟩
    simp [isAttached]
  · intro s h
    refine ⟨fun d => ?_, ?_, ?_, ?_, ?_⟩ <;>
      simp [sendSerial, run, restart, isRunning, getInstructionCounter, h]

theorem c9_witness :
    detach ctrl0 = Except.ok ctrl0 ∧ isRunning ctrl0 = false ∧
      getInstructionCounter ctrl0 = 0 ∧ run ctrl0 = ctrl0 ∧ restart ctrl0 = ctrl0 := by
  refine ⟨?_, ?_, ?_, ?_, ?_⟩
  · exact c9_unattached_defaults.2.1 ctrl0 rfl
  · exact (c9_unattached_defaults.2.2.2 ctrl0 rfl).2.2.2.1
  · exact (c9_unattached_defaults.2.2.2 ctrl0 rfl).2.2.2.2
  · exact (c9_unattached_defaults.2.2.2 ctrl0 rfl).2.1
  · exact (c9_unattached_defaults.2.2.2 ctrl0 rfl).2.2.1

/-- C2 counterexample: calling `addListener` while no emulator is attached
*does* record the callback in the listener registry (the source tracks it
unconditionally for cleanup), so the registry holds an entry although no
handle is attached — refuting the claim that the call records no state. -/
theorem c2_counterexample :
    (addListener .emulatorReady 7 ctrl0).eventListeners = [(.emulatorReady, [7])]
    ∧ ctrl0.emulator = none
    ∧ (addListener .emulatorReady 7 ctrl0).emulator = none :=
  ⟨rfl, rfl, rfl⟩

/-- C2 (amended): calling `addListener(event, callback)` while no emulator is
attached registers nothing on any handle but still records the callback in
the listener registry; `detach`, whenever it completes, unregisters the
tracked listeners from the attached handle (succeeding whenever the handle
does not throw) and leaves the registry cleared. -/
theorem c2_registry :
    (∀ ev cb s, s.emulator = none → addListener ev cb s = { s with eventListeners := insertEL ev cb s.eventListeners })
    ∧ (∀ s s', detach s = .ok s' → s'.eventListeners = [])
    ∧ (∀ s, goodEmu s = true → ∃ s', detach s = .ok s' ∧ s'.eventListeners = []) := by
  refine ⟨?_, ?_, ?_⟩
  · intro ev cb s h
    simp [addListener, h]
  · intro s s' h
    exact (detach_ok_fields h).2.1
  · intro s h
    rcases detach_good h with ⟨s', h1, h2, _, _, _⟩
    exact ⟨s', h1, h2⟩

theorem c2_witness :
    ctrl0.emulator = none ∧
      addListener .downloadProgress 3 ctrl0 = { ctrl0 with eventListeners := insertEL .downloadProgress 3 ctrl0.eventListeners } :=
  ⟨rfl, c2_registry.1 .downloadProgress 3 ctrl0 rfl⟩

/-- Handle used in the C3 scenario. -/
def hA : V86 := { id := 1 }

/-- A second, different handle. -/
def hB : V86 := { id := 2 }

/-- Controller attached to `hA`. -/
def c3s1 : Ctrl :=
  match attach hA ctrl0 with
  | .ok s => s
  | .error _ => ctrl0

/-- The same controller after one serial byte, so its buffer is nonempty. -/
def c3s2 : Ctrl := (feedByte 120 c3s1).1

/-- C3 counterexample: attaching a different handle `hB` while attached to
`hA` with a nonempty serial buffer leaves the buffer intact — `attach` does
not clear the SerialBuffer (and performs no detach), refuting the claim. -/
theorem c3_counterexample :
    hA.id ≠ hB.id
    ∧ c3s2.serialBuffer = [120]
    ∧ (match attach hB c3s2 with | .ok s => s.serialBuffer | .error _ => []) = [120]
    ∧ ([120] : Str) ≠ [] := by
  refine ⟨by decide, by decide, by decide, by decide⟩

/-- C3 (amended): `attach(h)` stores `h` and installs a fresh serial-byte
listener on it; when a serial-byte listener was already tracked, it is first
removed *via the newly stored handle* (so the old handle keeps its listener);
no detach is performed and neither the serial buffer, the serial listener set
nor the listener registry is touched.  Re-attaching the currently stored
handle therefore leaves the buffer, the registry and the serial listeners
unchanged and merely replaces the tracked serial-byte listener by an
equivalent fresh one. -/
theorem c3_attach_behavior (em : V86) (s : Ctrl) (h : em.removeFails = false) :
    ∃ s', attach em s = .ok s'
      ∧ s'.serialBuffer = s.serialBuffer
      ∧ s'.eventListeners = s.eventListeners
      ∧ s'.serialListeners = s.serialListeners
      ∧ s'.serialByteListener = some s.nextId
      ∧ s'.nextId = s.nextId + 1
      ∧ s'.emulator = some (V86.add_listener (match s.serialByteListener with | some l => em.removeL .serial0OutputByte l | none => em) .serial0OutputByte s.nextId) :=
  ⟨_, attach_good em s h, rfl, rfl, rfl, rfl, rfl, rfl⟩

theorem c3_witness :
    hB.removeFails = false ∧
      (∃ s', attach hB ctrl0 = .ok s'
        ∧ s'.serialBuffer = ctrl0.serialBuffer
        ∧ s'.eventListeners = ctrl0.eventListeners
        ∧ s'.serialListeners = ctrl0.serialListeners
        ∧ s'.serialByteListener = some ctrl0.nextId
        ∧ s'.nextId = ctrl0.nextId + 1
        ∧ s'.emulator = some (V86.add_listener (match ctrl0.serialByteListener with | some l => hB.removeL .serial0OutputByte l | none => hB) .serial0OutputByte ctrl0.nextId)) :=
  ⟨rfl, c3_attach_behavior hB ctrl0 rfl⟩

/-- The command listener registered by `executeCommand` with a timeout of 0
at time 0. -/
def c4exec : ExecStart := executeCommand (strL (r"ls")) 0 defaultMarker 0 ctrl0

/-- C4 counterexample: `executeCommand` installs its deadline timer
unconditionally, so with timeout 0 the registered command listener carries an
(immediately due) deadline, and firing that timer settles the operation by
the passage of time — refuting the claim that a timeout of 0 installs no
deadline timer for every waiting primitive. -/
theorem c4_counterexample :
    c4exec.state.serialListeners.map slTimer = [some 0]
    ∧ (fireTimer c4exec.wid c4exec.state).2 = some (.cmdTimeout 0 (strL (r"ls")) 0) := by
  refine ⟨by decide, by decide⟩

/-- C4 (amended): `waitForSerialOutput` with timeout 0 installs no deadline
(its waiter, when registered, carries none), `waitForScreenText` with
timeout 0 installs no deadline, and a listener without a deadline is never
settled by a timer firing; `executeCommand`, however, always registers its
command listener with the deadline `now + timeout`, installed even when the
timeout is 0. -/
theorem c4_timeout_zero :
    (∀ pat now s, (waitForSerialOutput pat 0 now s).1.serialListeners = s.serialListeners
      ∨ (waitForSerialOutput pat 0 now s).1.serialListeners = s.serialListeners ++ [.waiter s.nextId pat s.serialBuffer none])
    ∧ (∀ pats now screen, screenDeadline (waitForScreenText pats 0 now screen) = none)
    ∧ (∀ s wid, (∀ l ∈ s.serialListeners, slTimer l = none) → fireTimer wid s = (s, none))
    ∧ (∀ command tmo em now s, (executeCommand command tmo em now s).state.serialListeners = s.serialListeners ++ [.cmd s.nextId command em [] (now + tmo) tmo]) := by
  refine ⟨?_, ?_, ?_, ?_⟩
  · intro pat now s
    cases hm : checkMatch pat s.serialBuffer with
    | some v => exact Or.inl (by simp [waitForSerialOutput, hm])
    | none => exact Or.inr (by simp [waitForSerialOutput, hm])
  · intro pats now screen
    unfold waitForScreenText
    split <;> simp [screenDeadline]
  · intro s wid h
    unfold fireTimer
    cases hf : s.serialListeners.find? (fun l => idOf l == wid) with
    | none => rfl
    | some l =>
        have hl : l ∈ s.serialListeners := List.mem_of_find?_eq_some hf
        simp [timeoutOutcome_none (h l hl)]
  · intro command tmo em now s
    simp [executeCommand, sendSerial_serialListeners]

theorem c4_witness : fireTimer 5 ctrl0 = (ctrl0, none) :=
  c4_timeout_zero.2.2.1 ctrl0 5 (by simp [ctrl0])

/-- A handle whose `remove_listener` throws (modelling an already-destroyed
handle). -/
def emBad : V86 := { id := 9, removeFails := true }

/-- Controller attached to the throwing handle (the attach itself succeeds:
at that point there is no previous serial-byte listener to remove). -/
def c8sBad : Ctrl :=
  match attach emBad ctrl0 with
  | .ok s => s
  | .error _ => ctrl0

/-- C8 counterexample: `detach` has no try/catch, so when the handle's
`remove_listener` throws, `detach` propagates the error instead of completing
— refuting the claim that such errors are caught and swallowed. -/
theorem c8_counterexample :
    isAttached c8sBad = true ∧ detach c8sBad = .error () :=
  ⟨rfl, rfl⟩

/-- C8 (amended): `detach` completes — clearing the registry, the serial
buffer, the serial listener set and the handle reference — whenever the
attached handle's `remove_listener` does not throw; but an error raised by
`remove_listener` during unregistration is *not* caught: it propagates out of
`detach`. -/
theorem c8_detach_errors :
    (∀ s, goodEmu s = true → ∃ s', detach s = .ok s' ∧ s'.eventListeners = [] ∧ s'.serialBuffer = [] ∧ s'.serialListeners = [] ∧ s'.emulator = none)
    ∧ (∀ s l em, s.serialByteListener = some l → s.emulator = some em → em.removeFails = true → detach s = .error ()) := by
  refine ⟨fun s h => detach_good h, ?_⟩
  intro s l em h1 h2 h3
  simp [detach, detachSerialStep, h1, h2, V86.remove_listener, h3]

theorem c8_witness :
    goodEmu ctrl0 = true ∧
      (∃ s', detach ctrl0 = .ok s' ∧ s'.eventListeners = [] ∧ s'.serialBuffer = [] ∧ s'.serialListeners = [] ∧ s'.emulator = none) :=
  ⟨rfl, c8_detach_errors.1 ctrl0 rfl⟩

/-- Two pending serial waiters: one for "AAA" with no timeout, one for "BBB"
with a 100ms timeout, both registered on a fresh controller. -/
def c7sA : Ctrl := (waitForSerialOutput (.str (strL (r"AAA"))) 0 0 ctrl0).1

/-- Second waiter registered while the first is pending. -/
def c7sB : Ctrl := (waitForSerialOutput (.str (strL (r"BBB"))) 100 0 c7sA).1

/-- C7: concurrently pending serial waiters are independent.  Each incoming
byte steps every listener through its own private buffer (the new listener
set and the settlements are pointwise images of the old set), a firing
timeout removes exactly its own listener and leaves every other entry —
buffer and deadline included — untouched, and in the concrete scenario of
the claim the "AAA" waiter resolves with the content up to and including
"AAA" and the "BBB" waiter with the content up to and including "BBB";
timing out the "BBB" waiter first does not change the "AAA" resolution. -/
theorem c7_waiter_independence :
    (∀ b s, (feedByte b s).1.serialListeners = s.serialListeners.filterMap (fun l => (stepSL (fromCharCode b) l).getLeft?)
      ∧ (feedByte b s).2 = s.serialListeners.filterMap (fun l => (stepSL (fromCharCode b) l).getRight?))
    ∧ (∀ wid s o, (fireTimer wid s).2 = some o →
        (fireTimer wid s).1.serialListeners = s.serialListeners.filter (fun x => !(idOf x == wid))
        ∧ ∀ l ∈ s.serialListeners, idOf l ≠ wid → l ∈ (fireTimer wid s).1.serialListeners)
    ∧ (feedString (strL (r"xxxAAAyyyBBBzzz")) c7sB).2 = [.resolved 0 (strL (r"xxxAAA")), .resolved 1 (strL (r"xxxAAAyyyBBB"))]
    ∧ (fireTimer 1 c7sB).2 = some (.serialTimeout 1 (strL (r"BBB")))
    ∧ (feedString (strL (r"xxxAAAyyyBBBzzz")) (fireTimer 1 c7sB).1).2 = [.resolved 0 (strL (r"xxxAAA"))] := by
  refine ⟨fun b s => ⟨rfl, rfl⟩, ?_, by decide, by decide, by decide⟩
  intro wid s o h
  cases hf : s.serialListeners.find? (fun l => idOf l == wid) with
  | none =>
      unfold fireTimer at h
      rw [hf] at h
      exact Option.noConfusion h
  | some l =>
      cases ht : timeoutOutcome l with
      | none =>
          unfold fireTimer at h
          rw [hf] at h
          simp only [ht] at h
          exact Option.noConfusion h
      | some o' =>
          unfold fireTimer
          rw [hf]
          simp only [ht]
          refine ⟨trivial, ?_⟩
          intro x hx hne
          exact List.mem_filter.mpr ⟨hx, by simpa using hne⟩

theorem c7_witness :
    (fireTimer 1 c7sB).2 = some (.serialTimeout 1 (strL (r"BBB"))) ∧
      (fireTimer 1 c7sB).1.serialListeners = c7sB.serialListeners.filter (fun x => !(idOf x == 1)) :=
  ⟨by decide, (c7_waiter_independence.2.1 1 c7sB (.serialTimeout 1 (strL (r"BBB"))) (by decide)).1⟩

/-- C1: `executeCommand(command)` with the default options hands exactly the
line `<command>; echo <endMarker>\n` to the emulator's serial input, registers
a command listener accumulating only output received after the call (buffer
starts empty, deadline `now + 30000`), and when the accumulated output first
contains the end marker it resolves with that output after stripping the
`echo <endMarker>` invocation with its trailing newlines, stripping the
literal marker, and trimming; in particular, replying with the bytes of
`hello\n<endMarker>\n` resolves the command to `hello`. -/
theorem c1_executeCommand (command : Str) (now : Nat) (s : Ctrl) (em : V86)
    (h : s.emulator = some em) :
    (executeCommand command 30000 defaultMarker now s).line = command ++ strL (r"; echo ") ++ defaultMarker ++ [10]
    ∧ (executeCommand command 30000 defaultMarker now s).state.emulator = some (em.serial0_send (command ++ strL (r"; echo ") ++ defaultMarker ++ [10]))
    ∧ (executeCommand command 30000 defaultMarker now s).state.serialListeners = s.serialListeners ++ [.cmd s.nextId command defaultMarker [] (now + 30000) 30000]
    ∧ (∀ bs p, firstContaining defaultMarker [] (charsOf bs) = some p →
        Outcome.resolved s.nextId (cleanOutput defaultMarker p) ∈ (feedString bs (executeCommand command 30000 defaultMarker now s).state).2)
    ∧ cleanOutput defaultMarker (strL (r"hello") ++ [10] ++ defaultMarker) = strL (r"hello")
    ∧ Outcome.resolved s.nextId (strL (r"hello")) ∈ (feedString (strL (r"hello") ++ [10] ++ defaultMarker ++ [10]) (executeCommand command 30000 defaultMarker now s).state).2 := by
  have hls : (executeCommand command 30000 defaultMarker now s).state.serialListeners = s.serialListeners ++ [.cmd s.nextId command defaultMarker [] (now + 30000) 30000] := by
    simp [executeCommand, sendSerial_serialListeners]
  have hmem : SL.cmd s.nextId command defaultMarker [] (now + 30000) 30000 ∈ (executeCommand command 30000 defaultMarker now s).state.serialListeners := by
    rw [hls]
    exact List.mem_append_right _ (List.mem_singleton_self _)
  have hres : ∀ bs p, firstContaining defaultMarker [] (charsOf bs) = some p →
      Outcome.resolved s.nextId (cleanOutput defaultMarker p) ∈ (feedString bs (executeCommand command 30000 defaultMarker now s).state).2 := by
    intro bs p hp
    apply feedString_out hmem
    rw [runSL_cmd, hp]
  have hfc : firstContaining defaultMarker [] (charsOf (strL (r"hello") ++ [10] ++ defaultMarker ++ [10])) = some (strL (r"hello") ++ [10] ++ defaultMarker) := by decide
  have hclean : cleanOutput defaultMarker (strL (r"hello") ++ [10] ++ defaultMarker) = strL (r"hello") := by decide
  refine ⟨rfl, ?_, hls, hres, hclean, ?_⟩
  · simp [executeCommand, sendSerial, h, V86.serial0_send]
  · have := hres _ _ hfc
    rwa [hclean] at this

/-- Concrete attached controller for the C1 scenario. -/
def c1s : Ctrl :=
  match attach hA ctrl0 with
  | .ok s => s
  | .error _ => ctrl0

theorem c1_witness :
    c1s.emulator = some (V86.add_listener hA .serial0OutputByte 0) ∧
      Outcome.resolved c1s.nextId (strL (r"hello")) ∈ (feedString (strL (r"hello") ++ [10] ++ defaultMarker ++ [10]) (executeCommand (strL (r"ls")) 30000 defaultMarker 0 c1s).state).2 :=
  ⟨rfl, (c1_executeCommand (strL (r"ls")) 0 c1s (V86.add_listener hA .serial0OutputByte 0) rfl).2.2.2.2.2⟩

/-- C5: `waitForSerialOutput` seeds its waiter with the serial buffer content
at call time — an already-matching buffer resolves immediately with the
checked value (whole buffer for a string pattern, first matched substring for
a regex) and registers nothing; otherwise the registered waiter starts from
the seeded buffer, resolves on the first accumulated buffer (seed plus
subsequent bytes) containing a string pattern with that whole buffer, or with
the first regex match value; and with a positive timeout, firing the deadline
rejects with a timeout naming the pattern and removes the waiter, after which
no later byte can resolve it. -/
theorem c5_waitForSerialOutput (pat : Pattern) (tmo now : Nat) (s : Ctrl)
    (hw : wfIds s = true) :
    (∀ v, checkMatch pat s.serialBuffer = some v → waitForSerialOutput pat tmo now s = (s, .resolved v))
    ∧ (checkMatch pat s.serialBuffer = none →
        (waitForSerialOutput pat tmo now s).2 = .pending s.nextId
        ∧ (waitForSerialOutput pat tmo now s).1.serialListeners = s.serialListeners ++ [.waiter s.nextId pat s.serialBuffer (if tmo > 0 then some (now + tmo) else none)]
        ∧ (∀ p bs b0, pat = .str p → firstContaining p s.serialBuffer (charsOf bs) = some b0 →
            Outcome.resolved s.nextId b0 ∈ (feedString bs (waitForSerialOutput pat tmo now s).1).2)
        ∧ (∀ src f bs m, pat = .regex src f → firstHit f s.serialBuffer (charsOf bs) = some m →
            Outcome.resolved s.nextId m ∈ (feedString bs (waitForSerialOutput pat tmo now s).1).2)
        ∧ (0 < tmo →
            (fireTimer s.nextId (waitForSerialOutput pat tmo now s).1).2 = some (.serialTimeout s.nextId (Pattern.describe pat))
            ∧ (∀ bs v, Outcome.resolved s.nextId v ∉ (feedString bs (fireTimer s.nextId (waitForSerialOutput pat tmo now s).1).1).2))) := by
  constructor
  · intro v hv
    simp [waitForSerialOutput, hv]
  · intro hn
    have hpair : waitForSerialOutput pat tmo now s =
        ({ s with serialListeners := s.serialListeners ++ [SL.waiter s.nextId pat s.serialBuffer (if tmo > 0 then some (now + tmo) else none)], nextId := s.nextId + 1 }, .pending s.nextId) := by
      simp [waitForSerialOutput, hn]
    have hmem : SL.waiter s.nextId pat s.serialBuffer (if tmo > 0 then some (now + tmo) else none) ∈ (waitForSerialOutput pat tmo now s).1.serialListeners := by
      rw [hpair]
      exact List.mem_append_right _ (List.mem_singleton_self _)
    have hfresh : ∀ x ∈ s.serialListeners, (fun l => idOf l == s.nextId) x = false := by
      intro x hx
      have hlt : idOf x < s.nextId := by
        have := List.all_eq_true.mp hw x hx
        exact of_decide_eq_true this
      simp [Nat.ne_of_lt hlt]
    refine ⟨by rw [hpair], by rw [hpair], ?_, ?_, ?_⟩
    · intro p bs b0 hp hfc
      subst hp
      apply feedString_out hmem
      rw [runSL_waiter_str, hfc]
    · intro src f bs m hp hfh
      subst hp
      apply feedString_out hmem
      rw [runSL_waiter_regex, hfh]
    · intro htmo
      have hdl : (if tmo > 0 then some (now + tmo) else none) = some (now + tmo) := if_pos htmo
      rw [hpair, hdl]
      have hfind : List.find? (fun l => idOf l == s.nextId) (s.serialListeners ++ [SL.waiter s.nextId pat s.serialBuffer (some (now + tmo))]) = some (SL.waiter s.nextId pat s.serialBuffer (some (now + tmo))) := by
        rw [findAppendRight hfresh]
        simp [List.find?, idOf]
      have hft : fireTimer s.nextId { s with serialListeners := s.serialListeners ++ [SL.waiter s.nextId pat s.serialBuffer (some (now + tmo))], nextId := s.nextId + 1 } =
          ({ s with serialListeners := (s.serialListeners ++ [SL.waiter s.nextId pat s.serialBuffer (some (now + tmo))]).filter (fun x => !(idOf x == s.nextId)), nextId := s.nextId + 1 }, some (.serialTimeout s.nextId (Pattern.describe pat))) := by
        simp [fireTimer, hfind, timeoutOutcome]
      refine ⟨by rw [hft], ?_⟩
      intro bs v hv
      rw [hft] at hv
      rcases feedString_out_src hv with ⟨l, hl, hid⟩
      have hne : idOf l ≠ s.nextId := by
        simpa using (List.mem_filter.mp hl).2
      exact hne ((show s.nextId = idOf l from hid).symm)

/-- Controller whose serial buffer already holds `xAB`. -/
def c5s : Ctrl := (feedString (strL (r"xAB")) ctrl0).1

theorem c5_witness :
    wfIds c5s = true ∧
      waitForSerialOutput (.str (strL (r"AB"))) 50 0 c5s = (c5s, .resolved (strL (r"xAB"))) :=
  ⟨by decide, (c5_waitForSerialOutput (.str (strL (r"AB"))) 50 0 c5s (by decide)).1 (strL (r"xAB")) (by decide)⟩
